import Mathlib

/-!
Verification of the repository-analysis / contextual-retrieval pipeline of the
`git_chatbot` repository.  The Python sources under `src/` are shallowly
embedded as executable Lean definitions: pure helper functions become Lean
functions, the GitHub host / vector index are modelled as explicit immutable
values, and Python exceptions become `Except String` results.  Machine integers
do not occur in the modelled code paths; floating point scores are modelled by
`ℚ` (the arithmetic in `_calculate_importance` stays far from rounding ties, so
the rational semantics agrees with the float semantics on every value used in a
theorem below).
-/

namespace GitChatbot

/-! String manipulation is implemented over `List Char` with structural (fuel)
recursion so that every definition reduces inside the kernel; strings cross the
boundary via `String.toList` / `String.mk`. -/

/-- `p` is a prefix of `cs`. -/
def isPrefixL (p cs : List Char) : Bool := cs.take p.length = p

/-- `str.split(sep)` / `String.splitOn` for a nonempty separator (fuel-driven;
the fuel `cs.length` is always sufficient since every step consumes a
character). -/
def splitOnCharsF (sep : List Char) : Nat → List Char → List Char → List (List Char)
  | _, acc, [] => [acc.reverse]
  | 0, acc, rest => [acc.reverse ++ rest]
  | fuel + 1, acc, c :: rest =>
    if isPrefixL sep (c :: rest) then
      acc.reverse :: splitOnCharsF sep fuel [] (rest.drop (sep.length - 1))
    else splitOnCharsF sep fuel (c :: acc) rest

def splitOnL (sep cs : List Char) : List (List Char) :=
  if sep.isEmpty then [cs] else splitOnCharsF sep cs.length [] cs

def strSplitOn (s sep : String) : List String :=
  (splitOnL sep.toList s.toList).map String.mk

/-- The line list `content.split('\n')`. -/
def linesOf (s : String) : List String := strSplitOn s "\n"

/-- `str.replace(pat, rep)` — every non-overlapping occurrence, left to right. -/
def replaceCharsF (pat rep : List Char) : Nat → List Char → List Char
  | _, [] => []
  | 0, rest => rest
  | fuel + 1, c :: rest =>
    if isPrefixL pat (c :: rest) then
      rep ++ replaceCharsF pat rep fuel (rest.drop (pat.length - 1))
    else c :: replaceCharsF pat rep fuel rest

def strReplace (s pat rep : String) : String :=
  if pat.isEmpty then s
  else String.mk (replaceCharsF pat.toList rep.toList s.toList.length s.toList)

def lowerStr (s : String) : String := String.mk (s.toList.map Char.toLower)

def joinWith (sep : String) : List String → String
  | [] => ""
  | [x] => x
  | x :: xs => x ++ sep ++ joinWith sep xs

/-- Python `\w` character class (ASCII fragment, sufficient for the sources). -/
def isWordChar (c : Char) : Bool := c.isAlphanum || c = '_'

/-- Python `\s` character class. -/
def isSpaceChar (c : Char) : Bool :=
  c = ' ' || c = '\t' || c = '\n' || c = '\r' || c = '\x0b' || c = '\x0c'

/-- `str.strip()`. -/
def trimStr (s : String) : String :=
  String.mk (((s.toList.dropWhile isSpaceChar).reverse.dropWhile isSpaceChar).reverse)

/-- Match a literal character list as a prefix and hand the rest to `k`. -/
def litThen (lit : List Char) (k : List Char → Bool) : List Char → Bool
  | cs =>
    match lit, cs with
    | [], rest => k rest
    | _ :: _, [] => false
    | l :: ls, c :: rest => l = c && litThen ls k rest

/-- One-or-more whitespace characters, then `k` (maximal munch: every
continuation used below rejects a leading whitespace character). -/
def ws1Then (k : List Char → Bool) : List Char → Bool
  | [] => false
  | c :: rest => isSpaceChar c && k (rest.dropWhile isSpaceChar)

/-- Zero-or-more whitespace characters, then `k` (whitespace is maximal; the
continuations used below never start with whitespace, so maximal munch is the
regex semantics). -/
def wsThen (k : List Char → Bool) (cs : List Char) : Bool :=
  k (cs.dropWhile isSpaceChar)

/-- One-or-more word characters, then `k` (again maximal munch: every
continuation used below starts with a non-word character). -/
def word1Then (k : List Char → Bool) : List Char → Bool
  | [] => false
  | c :: rest => isWordChar c && k (rest.dropWhile isWordChar)

/-- `re.search`: does the pattern match starting at any position? -/
def searchAny (p : List Char → Bool) : List Char → Bool
  | [] => p []
  | c :: rest => p (c :: rest) || searchAny p rest

/-- `pat` occurs as a substring of `s` (Python's `in` on `str`). -/
def containsSub (s pat : String) : Bool :=
  searchAny (litThen pat.toList (fun _ => true)) s.toList

/-- `re.search(r'class\s+(\w+)', line)` from `LANGUAGE_PATTERNS` in
`code_processor.py`. -/
def classLinePat (line : String) : Bool :=
  searchAny (litThen "class".toList (ws1Then (word1Then (fun _ => true)))) line.toList

/-- `re.search` of `(?:async\s+)?function\s+(\w+)|const\s+(\w+)\s*=\s*(?:async\s+)?\(`
(the `javascript`/`typescript` `function` pattern).  For a boolean search the
optional `async` prefix is irrelevant to the first alternative. -/
def funcLinePat (line : String) : Bool :=
  searchAny (litThen "function".toList (ws1Then (word1Then (fun _ => true)))) line.toList ||
  searchAny (litThen "const".toList (ws1Then (word1Then (wsThen (litThen "=".toList
    (wsThen (fun cs =>
      litThen "async".toList (ws1Then (litThen "(".toList (fun _ => true))) cs ||
      litThen "(".toList (fun _ => true) cs))))))) line.toList

/-- `re.search(r'function\s+\w+\s*\([^)]*\)\s*{.*return\s*\(', line)` — the React
component pattern in `_process_javascript`.  `[^)]*` cannot skip a `)`, so the
first `)` closes it; `.*` is an arbitrary gap handled by an inner search. -/
def reactLinePat (line : String) : Bool :=
  searchAny (litThen "function".toList (ws1Then (word1Then (wsThen (litThen "(".toList
    (fun cs =>
      let afterArgs := cs.dropWhile (fun c => c ≠ ')')
      match afterArgs with
      | [] => false
      | _ :: rest =>
        wsThen (litThen "\x7b".toList (searchAny
          (litThen "return".toList (wsThen (litThen "(".toList (fun _ => true)))))) rest))))))
    line.toList

/-- `re.search(r'const\s+\w+\s*=\s*\(', content)` used by `_determine_chunk_type`
(no optional `async` here, unlike the boundary pattern). -/
def constArrowPat (s : String) : Bool :=
  searchAny (litThen "const".toList (ws1Then (word1Then (wsThen (litThen "=".toList
    (wsThen (litThen "(".toList (fun _ => true)))))))) s.toList

/-- `re.search(r'interface\s+(\w+)', content)` / `re.search(r'type\s+(\w+)', content)`
as boolean searches. -/
def interfaceSearchPat (s : String) : Bool :=
  searchAny (litThen "interface".toList (ws1Then (word1Then (fun _ => true)))) s.toList

def typeSearchPat (s : String) : Bool :=
  searchAny (litThen "type".toList (ws1Then (word1Then (fun _ => true)))) s.toList

/-- `Path(p).suffix.lower()`:  the extension (with dot) of the final path
component, empty for names with no dot, a leading-dot-only name, or a trailing
dot — matching `pathlib` on every realistic input in the sources. -/
def pathSuffix (p : String) : String :=
  let name := (strSplitOn p "/").getLastD ""
  let parts := strSplitOn name "."
  if parts.length ≥ 2 && parts.headD "" ≠ "" && parts.getLastD "" ≠ "" then
    "." ++ (parts.getLastD "")
  else ""

def extOf (p : String) : String := lowerStr (pathSuffix p)

/-- `GitHubService._is_code_file` (github_service.py): membership of the
lower-cased suffix in the fixed extension set. -/
def is_code_file (path : String) : Bool :=
  [".py", ".js", ".ts", ".jsx", ".tsx", ".java", ".cpp", ".c",
   ".h", ".cs", ".rb", ".php", ".go", ".rs", ".swift", ".kt",
   ".dart", ".vue", ".scala", ".r", ".jl"].contains (extOf path)

/-! ## `src/vector_store/code_processor.py` — chunk data model -/

/-- The metadata dict attached to a chunk.  Keys that a given strategy does not
set are `none` (absent from the Python dict).  The Python `importance` float is
represented in exact hundredths (`importance = float value × 100`): every value
the code can produce — the fixed constants 0.8/0.5/0.9/0.7 and every
`round(x, 2)` output — is an exact multiple of 0.01. -/
structure ChunkMeta where
  file : String
  type : String
  code_type : String
  name : Option String := none
  line_start : Option Nat := none
  line_end : Option Nat := none
  decorators : Option (List String) := none
  docstring : Option String := none
  importance : Nat
  deriving Repr, DecidableEq

/-- A chunk is the `(content, metadata)` tuple returned by `process_file`. -/
abbrev Chunk := String × ChunkMeta

/-- `CodeProcessor._calculate_importance` (code_processor.py:245-271), computed
exactly in hundredths (the `lru_cache` memoisation is invisible for a pure
function).  Python computes, with `b = base_score` after the two `+0.1` bonuses
and `m = min(length, 500)`:
`round(min(1.0, b + (1.0 - abs(0.5 - m/500)) * 0.2), 2)`.
Over a common denominator 2500 the value inside `round(·, 2)` is
`min 2500 (25*(100*b) + 500 - |250 - m|) / 2500`, so `× 100` it is `num/25`
with `num` the capped numerator; its fractional part is `k/25`, never exactly
`1/2`, so CPython's round-half-even equals round-half-up
`= (2*num + 25) / 50` and the float evaluation (error ≈ 1e-16, boundary
distance ≥ 0.02) agrees. -/
def calculate_importance (chunk_type : String) (has_decorators has_docstring : Bool)
    (length : Nat) : Nat :=
  let base100 : Nat :=
    if chunk_type = "class" then 90
    else if chunk_type = "async_function" then 85
    else if chunk_type = "function" then 80
    else if chunk_type = "imports" then 70
    else if chunk_type = "generic" then 50
    else 50
  let base100 := if has_decorators then base100 + 10 else base100
  let base100 := if has_docstring then base100 + 10 else base100
  let m := min length 500
  let d := if m ≤ 250 then 250 - m else m - 250
  let num := min 2500 (25 * base100 + 500 - d)
  (2 * num + 25) / 50

/-- `'\n'.join(l)` for a nonempty list of lines. -/
def joinLines : List String → String
  | [] => ""
  | [x] => x
  | x :: xs => x ++ "\n" ++ joinLines xs

/-- `CodeProcessor._process_generic` (code_processor.py:223-243):
`for i in range(0, len(lines), chunk_size)` with `chunk_size = 50`,
`lines = content.split('\n')`.  `range(0, L, 50)` has `⌈L/50⌉` elements and the
`k`-th iteration uses `i = 50*k`, `lines[i:i+50]`. -/
def process_generic (file_path content : String) : List Chunk :=
  let lines := linesOf content
  (List.range ((lines.length + 49) / 50)).map (fun k =>
    let i := 50 * k
    (joinLines ((lines.drop i).take 50),
     { file := file_path
       type := "generic"
       code_type := "unknown"
       line_start := some (i + 1)
       line_end := some (min (i + 50) lines.length)
       importance := 50 }))

/-! ## Python AST model

`ast.parse` is CPython, not repository code; it is modelled by an abstract
parameter `pyAst : String → Option PyNode` (`none` = `SyntaxError`).  The node
model carries exactly the attributes `_process_python` reads: node kind, name,
the `(lineno, col_offset, end_lineno, end_col_offset)` span (1-based lines,
0-based columns, as in CPython), decorator spans, the `ast.get_docstring`
result, and the dotted names of import statements. -/

structure PySpan where
  lineno : Nat
  col_offset : Nat
  end_lineno : Nat
  end_col_offset : Nat
  deriving Repr, DecidableEq

inductive PyNode where
  | module (body : List PyNode)
  | functionDef (name : String) (isAsync : Bool) (span : PySpan)
      (decorator_list : List PySpan) (docstring : Option String) (body : List PyNode)
  | classDef (name : String) (span : PySpan)
      (decorator_list : List PySpan) (docstring : Option String) (body : List PyNode)
  | importStmt (names : List String)
  | importFrom (module : Option String) (names : List String)
  | other
  deriving Repr

def PyNode.children : PyNode → List PyNode
  | .module body => body
  | .functionDef _ _ _ _ _ body => body
  | .classDef _ _ _ _ body => body
  | _ => []

/-- `ast.walk`: breadth-first traversal yielding the start node first. -/
def pyWalkAux : List PyNode → Nat → List PyNode
  | [], _ => []
  | _, 0 => []
  | queue, fuel + 1 => queue ++ pyWalkAux (queue.flatMap PyNode.children) fuel

mutual

def PyNode.size : PyNode → Nat
  | .module body => 1 + PyNode.sizeList body
  | .functionDef _ _ _ _ _ body => 1 + PyNode.sizeList body
  | .classDef _ _ _ _ body => 1 + PyNode.sizeList body
  | _ => 1

def PyNode.sizeList : List PyNode → Nat
  | [] => 0
  | n :: ns => PyNode.size n + PyNode.sizeList ns

end

def pyWalk (n : PyNode) : List PyNode := pyWalkAux [n] (n.size + 1)

/-- `ast.get_source_segment(content, node)` for a span: the text from
`(lineno, col_offset)` to `(end_lineno, end_col_offset)`. -/
def getSourceSegment (content : String) (s : PySpan) : Option String :=
  let lines := linesOf content
  if s.lineno = 0 ∨ s.end_lineno < s.lineno ∨ lines.length < s.end_lineno then none
  else if s.lineno = s.end_lineno then
    some (String.mk ((((lines.drop (s.lineno - 1)).headD "").toList.take
      s.end_col_offset).drop s.col_offset))
  else
    let first := String.mk (((lines.drop (s.lineno - 1)).headD "").toList.drop s.col_offset)
    let mid := (lines.drop s.lineno).take (s.end_lineno - s.lineno - 1)
    let last := String.mk (((lines.drop (s.end_lineno - 1)).headD "").toList.take
      s.end_col_offset)
    some (joinLines (first :: mid ++ [last]))

/-- `CodeProcessor._extract_python_imports` (code_processor.py:273-283). -/
def extract_python_imports (tree : PyNode) : Option String :=
  let imports := (pyWalk tree).flatMap (fun n =>
    match n with
    | .importStmt names => names
    | .importFrom m names => names.map (fun nm => (m.getD "") ++ "." ++ nm)
    | _ => [])
  if imports.isEmpty then none
  else some (joinLines (imports.map (fun imp => "import " ++ imp)))

/-- `CodeProcessor._process_python` (code_processor.py:65-131), given the result
of `ast.parse`.  The parse-failure branch (`except` → `_process_generic`) is in
`process_file` below. -/
def process_python_parsed (file_path content : String) (tree : PyNode) : List Chunk :=
  let importChunks : List Chunk :=
    match extract_python_imports tree with
    | none => []
    | some imports =>
      [(imports, { file := file_path, type := "imports", code_type := "python_imports",
                   line_start := some 1, importance := 80 })]
  let defChunks : List Chunk := (pyWalk tree).flatMap (fun n =>
    match n with
    | .functionDef nm isAsync span decs doc _ =>
      match getSourceSegment content span with
      | none => []
      | some chunk_content =>
        let chunk_type := if isAsync then "async_function" else "function"
        [(chunk_content,
          { file := file_path, type := chunk_type, name := some nm,
            line_start := some span.lineno, line_end := some span.end_lineno,
            decorators := some ((decs.map (getSourceSegment content)).map (·.getD "")),
            docstring := doc, code_type := "python",
            importance := calculate_importance chunk_type (!decs.isEmpty) doc.isSome
              chunk_content.length })]
    | .classDef nm span decs doc _ =>
      match getSourceSegment content span with
      | none => []
      | some chunk_content =>
        [(chunk_content,
          { file := file_path, type := "class", name := some nm,
            line_start := some span.lineno, line_end := some span.end_lineno,
            decorators := some ((decs.map (getSourceSegment content)).map (·.getD "")),
            docstring := doc, code_type := "python",
            importance := calculate_importance "class" (!decs.isEmpty) doc.isSome
              chunk_content.length })]
    | _ => [])
  importChunks ++ defChunks

/-! ## `code_processor.py` — JavaScript / TypeScript regex strategies -/

def isQuote (c : Char) : Bool := c = '"' || c = Char.ofNat 39

/-- One line of `CodeProcessor._extract_js_imports`'s MULTILINE pattern
`^import\s+(?:{[^}]+}|[^;]+)\s+from\s+['"]([^'"]+)['"];?\s*$`, parsed from both
ends (greedy `[^;]+` backtracks to the last feasible `from`-clause); returns the
captured module string on a match. -/
def jsImportLineCapture (line : String) : Option String :=
  match line.toList with
  | 'i' :: 'm' :: 'p' :: 'o' :: 'r' :: 't' :: rest =>
    match rest with
    | [] => none
    | c0 :: _ =>
      if isSpaceChar c0 then
        let body := rest.dropWhile isSpaceChar
        let r := body.reverse.dropWhile isSpaceChar
        let r := match r with
          | c :: t => if c = ';' then t else c :: t
          | [] => []
        match r with
        | q :: t =>
          if isQuote q then
            let modRev := t.takeWhile (fun c => !(isQuote c))
            let t2 := t.drop modRev.length
            match t2 with
            | q2 :: t3 =>
              if isQuote q2 && !modRev.isEmpty then
                let t4 := t3.dropWhile isSpaceChar
                match t4 with
                | 'm' :: 'o' :: 'r' :: 'f' :: t5 =>
                  match t5 with
                  | [] => none
                  | c5 :: _ =>
                    if isSpaceChar c5 then
                      let mid := (t5.dropWhile isSpaceChar).reverse
                      let midOk :=
                        (!mid.isEmpty && !mid.contains ';') ||
                        (match mid with
                         | '{' :: inner =>
                           match inner.reverse with
                           | '}' :: innerRev => !innerRev.isEmpty && !innerRev.contains '}'
                           | _ => false
                         | _ => false)
                      if midOk then some (String.mk modRev.reverse) else none
                    else none
                | _ => none
              else none
            | _ => none
          else none
        | [] => none
      else none
  | _ => none

/-- `CodeProcessor._extract_js_imports` (code_processor.py:285-289): the
captured module names of all matching lines, newline-joined, `None` if none. -/
def extract_js_imports (content : String) : Option String :=
  let caps := (linesOf content).filterMap jsImportLineCapture
  if caps.isEmpty then none else some (joinLines caps)

def functionSearchPat (s : String) : Bool :=
  searchAny (litThen "function".toList (ws1Then (word1Then (fun _ => true)))) s.toList

def classSearchPat (s : String) : Bool :=
  searchAny (litThen "class".toList (ws1Then (word1Then (fun _ => true)))) s.toList

/-- `CodeProcessor._determine_chunk_type` (code_processor.py:337-350). -/
def determine_chunk_type (content : String) : String :=
  if classSearchPat content then "class"
  else if functionSearchPat content then "function"
  else if constArrowPat content then "arrow_function"
  else if interfaceSearchPat content then "interface"
  else if typeSearchPat content then "type"
  else "generic"

/-- JSDoc presence: `re.search(r'/\*\*[\s\S]*?\*/', content)`. -/
def jsdocPat (s : String) : Bool :=
  searchAny (litThen "/**".toList (searchAny (litThen "*/".toList (fun _ => true)))) s.toList

/-- `CodeProcessor._process_chunk` (code_processor.py:315-335).  `line_number` is
the (0-based) loop index at flush time; the source computes the 1-based range
from it.  The `length` passed to the importance function is the line count. -/
def process_chunk (file_path : String) (chunk_lines : List String) (line_number : Nat) :
    List Chunk :=
  let content := joinLines chunk_lines
  let chunk_type := determine_chunk_type content
  [(content,
    { file := file_path, type := chunk_type, code_type := "javascript",
      line_start := some (line_number + 1 - chunk_lines.length),
      line_end := some line_number,
      importance := calculate_importance chunk_type false (jsdocPat content)
        chunk_lines.length })]

/-- The line loop of `CodeProcessor._process_javascript`
(code_processor.py:151-183): `i` is the 0-based index of the current line,
`cur` the accumulated `current_chunk`.  A React-component match starts a new
chunk without flushing; class/function boundary matches flush then start; other
lines are appended only when a chunk is open. -/
def jsScan (file_path : String) (isReact : Bool) :
    List String → Nat → List String → List Chunk
  | [], i, cur => if cur.isEmpty then [] else process_chunk file_path cur i
  | l :: rest, i, cur =>
    if isReact && reactLinePat l then
      jsScan file_path isReact rest (i + 1) [l]
    else if classLinePat l then
      (if cur.isEmpty then [] else process_chunk file_path cur i) ++
        jsScan file_path isReact rest (i + 1) [l]
    else if funcLinePat l then
      (if cur.isEmpty then [] else process_chunk file_path cur i) ++
        jsScan file_path isReact rest (i + 1) [l]
    else
      jsScan file_path isReact rest (i + 1) (if cur.isEmpty then [] else cur ++ [l])

/-- `CodeProcessor._process_javascript` (code_processor.py:133-184). -/
def process_javascript (file_path content : String) (isReact : Bool) : List Chunk :=
  let importChunks : List Chunk :=
    match extract_js_imports content with
    | none => []
    | some imports =>
      [(imports, { file := file_path, type := "imports",
                   code_type := "javascript_imports", importance := 80 })]
  importChunks ++ jsScan file_path isReact (linesOf content) 0 []

/-- A match of `interface\s+(\w+)` starting exactly at the head of `cs`:
returns the total matched length. -/
def matchInterfaceLen (cs : List Char) : Option Nat :=
  if cs.take 9 = "interface".toList then
    let rest := cs.drop 9
    let wsN := (rest.takeWhile isSpaceChar).length
    if wsN = 0 then none
    else
      let wN := ((rest.drop wsN).takeWhile isWordChar).length
      if wN = 0 then none else some (9 + wsN + wN)
  else none

/-- `re.finditer(r'interface\s+(\w+)', content)`: the 0-based start positions of
the non-overlapping, leftmost matches (fuel as in `findallWithF`). -/
def finditerInterfaceF : Nat → List Char → Nat → List Nat
  | _, [], _ => []
  | 0, _, _ => []
  | fuel + 1, c :: rest, pos =>
    match matchInterfaceLen (c :: rest) with
    | some len => pos :: finditerInterfaceF fuel (rest.drop (len - 1)) (pos + len)
    | none => finditerInterfaceF fuel rest (pos + 1)

def finditerInterface (cs : List Char) (pos : Nat) : List Nat :=
  finditerInterfaceF cs.length cs pos

/-- `CodeProcessor._extract_block` (code_processor.py:291-313).  A `}` with an
empty stack is `stack.pop()` on an empty list — an `IndexError`, modelled as
`Except.error`; it propagates out of `_process_typescript` into `process_file`'s
catch-all. -/
def extract_block_go : List Char → Nat → Bool → List Char → Except Unit (Option String)
  | [], _, _, _ => .ok none
  | c :: rest, depth, inBlock, acc =>
    if c = '{' then
      let acc := c :: acc
      extract_block_go rest (depth + 1) true acc
    else if c = '}' then
      if depth = 0 then .error ()
      else
        let depth := depth - 1
        let acc := if inBlock then c :: acc else acc
        if inBlock && depth = 0 then .ok (some (String.mk acc.reverse))
        else extract_block_go rest depth inBlock acc
    else
      let acc := if inBlock then c :: acc else acc
      if inBlock && depth = 0 then .ok (some (String.mk acc.reverse))
      else extract_block_go rest depth inBlock acc

def extract_block (content : String) (start_pos : Nat) : Except Unit (Option String) :=
  extract_block_go (content.toList.drop start_pos) 0 false []

/-- `CodeProcessor._process_typescript` (code_processor.py:186-221):
imports chunk, then one `interface` chunk per `finditer` match (via
`_extract_block`), then the whole `_process_javascript` pass again. -/
def process_typescript (file_path content : String) (isReact : Bool) :
    Except Unit (List Chunk) := do
  let importChunks : List Chunk :=
    match extract_js_imports content with
    | none => []
    | some imports =>
      [(imports, { file := file_path, type := "imports",
                   code_type := "typescript_imports", importance := 80 })]
  let blocks ← (finditerInterface content.toList 0).mapM (extract_block content)
  let interfaceChunks : List Chunk := blocks.filterMap (fun b =>
    match b with
    | some s =>
      if s ≠ "" then
        some (s, { file := file_path, type := "interface",
                   code_type := "typescript", importance := 90 })
      else none
    | none => none)
  return importChunks ++ interfaceChunks ++ process_javascript file_path content isReact

/-- `CodeProcessor.process_file` (code_processor.py:46-63).  `pyAst` models the
external `ast.parse` (`none` = `SyntaxError`); any exception from a strategy —
a Python parse failure, or `_extract_block`'s `IndexError` — lands in the
catch-all and degrades the whole file to `_process_generic`. -/
def process_file (pyAst : String → Option PyNode) (file_path content : String) :
    List Chunk :=
  let ext := extOf file_path
  if ext = ".py" then
    match pyAst content with
    | some tree => process_python_parsed file_path content tree
    | none => process_generic file_path content
  else if ext = ".js" || ext = ".jsx" then
    process_javascript file_path content (containsSub ext "jsx")
  else if ext = ".ts" || ext = ".tsx" then
    match process_typescript file_path content (containsSub ext "tsx") with
    | .ok chunks => chunks
    | .error _ => process_generic file_path content
  else
    process_generic file_path content

/-! ## Tiling of line ranges (for the fallback-safety claim) -/

/-- `tilesFrom s n rs`: the ranges `rs` are consecutive 1-based line windows
starting at `s`, each of width ≤ 50, ending exactly at line `n` — no gaps, no
overlaps, 100% coverage of lines `s..n`. -/
def tilesFrom : Nat → Nat → List (Nat × Nat) → Bool
  | s, n, [] => s == n + 1
  | s, n, (a, b) :: rest =>
    a == s && s ≤ b && b ≤ n && b + 1 - s ≤ 50 && tilesFrom (b + 1) n rest

def rangesOf (cs : List Chunk) : List (Nat × Nat) :=
  cs.map (fun c => (c.2.line_start.getD 0, c.2.line_end.getD 0))

/-- The boundary predicate of `_process_javascript`'s line loop: a line at which
a new chunk is started. -/
def jsBoundaryPred (isReact : Bool) (l : String) : Bool :=
  (isReact && reactLinePat l) || classLinePat l || funcLinePat l

/-- Index of the first line at which the loop would start a chunk. -/
def jsFirstBoundary (isReact : Bool) : List String → Option Nat
  | [] => none
  | l :: rest =>
    if jsBoundaryPred isReact l then some 0
    else (jsFirstBoundary isReact rest).map (· + 1)

/-! ## Concrete inputs used by the chunker scenarios -/

/-- The two-line Python file of the spec's concrete scenario 2. -/
def addSrc : String := "def add(a, b):\n    return a + b"

/-- `ast.parse(addSrc)` per CPython: a `Module` whose body is one `FunctionDef`
named `add`, `lineno 1`, `col_offset 0`, `end_lineno 2`, `end_col_offset 16`
(the second line has 16 characters), empty `decorator_list`, no docstring (the
body is a single `Return`). -/
def addAst : PyNode := .module [.functionDef "add" false ⟨1, 0, 2, 16⟩ [] none [.other]]

def addParser : String → Option PyNode := fun c => if c = addSrc then some addAst else none

/-- A parser stub for inputs whose Python AST is never consulted. -/
def noParse : String → Option PyNode := fun _ => none

/-- TypeScript input whose `interface` block contains a line that precedes the
first class/function boundary line. -/
def tsSrc : String := "interface Foo \x7b\nbar: string\n\x7d\nfunction f() \x7b\n\x7d"

/-! ## `src/github_service.py` — host model

The remote GitHub API is an external collaborator; it is modelled as an
immutable `Host` value.  File contents are modelled post-base64-decoding (the
service decodes every payload with `base64.b64decode(...).decode('utf-8')`).
The in-memory cache of `tracked_get_contents` returns, within one run against
an immutable host, exactly what a fresh fetch returns, so it is semantically
the identity and is not modelled separately; the rate limiter only affects
timing. -/

inductive FsTree where
  | file (name : String) (size : Nat) (sha : String) (content : String)
  | dir (name : String) (children : List FsTree)
  deriving Repr

def FsTree.name : FsTree → String
  | .file n _ _ _ => n
  | .dir n _ => n

/-- One item as returned by the contents API (directories carry no payload). -/
structure GitItem where
  path : String
  isDir : Bool
  size : Nat
  sha : String
  content : String
  deriving Repr, DecidableEq

inductive GitContents where
  | one (item : GitItem)
  | many (items : List GitItem)
  deriving Repr, DecidableEq

def joinPath (pref n : String) : String := if pref = "" then n else pref ++ "/" ++ n

def itemsOf (pref : String) (ts : List FsTree) : List GitItem :=
  ts.map (fun t =>
    match t with
    | .file n sz sha c => { path := joinPath pref n, isDir := false, size := sz, sha := sha, content := c }
    | .dir n _ => { path := joinPath pref n, isDir := true, size := 0, sha := "", content := "" })

def findNamed (ts : List FsTree) (nm : String) : Option FsTree :=
  ts.find? (fun t => t.name = nm)

def descendPath : List FsTree → String → List String → Option (String × FsTree)
  | _, _, [] => none
  | ts, pref, [c] =>
    match findNamed ts c with
    | some t => some (joinPath pref c, t)
    | none => none
  | ts, pref, c :: cs =>
    match findNamed ts c with
    | some (.dir _ ch) => descendPath ch (joinPath pref c) cs
    | _ => none

structure RepoMeta where
  name : String
  fullName : String
  description : String
  defaultBranch : String
  language : String
  lastUpdated : String
  stars : Nat
  forks : Nat
  size : Nat
  openIssues : Nat
  topics : List String
  isPrivate : Bool
  deriving Repr

/-- The remote host: the tree at the current default-branch HEAD (served when
no ref is passed), trees pinned at known refs, branch resolution
(`repo.get_branch`, `none` = raises), and the branch listing
(`repo.get_branches`, `none` = raises). -/
structure Host where
  meta : RepoMeta
  defaultFs : List FsTree
  refFs : String → Option (List FsTree)
  getBranch : String → Option String
  branchList : Option (List String)

def Host.fsAt (h : Host) : Option String → Option (List FsTree)
  | none => some h.defaultFs
  | some r => h.refFs r

/-- `repo.get_contents(path, ref=...)`: a directory path lists its children, a
file path returns the file, `ref=None` reads the current default-branch HEAD. -/
def repoGetContents (h : Host) (ref : Option String) (path : String) :
    Except String GitContents :=
  match h.fsAt ref with
  | none => .error "404 unknown ref"
  | some roots =>
    if path = "" then .ok (.many (itemsOf "" roots))
    else
      match descendPath roots "" ((strSplitOn path "/").filter (· ≠ "")) with
      | some (full, .file _ sz sha c) =>
        .ok (.one { path := full, isDir := false, size := sz, sha := sha, content := c })
      | some (full, .dir _ ch) => .ok (.many (itemsOf full ch))
      | none => .error ("404 " ++ path)

/-- The repeated Python idiom
`ref=self._current_commit_sha if self._current_commit_sha else branch`. -/
def refArgOf (stored branch : Option String) : Option String :=
  match stored with
  | some s => some s
  | none => branch

def isHex40 (r : String) : Bool :=
  r.toList.length = 40 && r.toList.all (fun c => "0123456789abcdef".toList.contains c.toLower)

/-- The ref-substitution chain of `GitHubService._get_contents`
(github_service.py:86-97): a 40-hex ref is used as-is; otherwise the stored
commit SHA wins; otherwise a slash-free ref is resolved as a branch (falling
back to the ref itself when `get_branch` raises). -/
def effectiveRef (h : Host) (stored ref : Option String) : Option String :=
  match ref with
  | none => none
  | some r =>
    if isHex40 r then some r
    else
      match stored with
      | some s => some s
      | none =>
        if !(r.toList.contains '/') then
          match h.getBranch r with
          | some sha => some sha
          | none => some r
        else some r

/-- `_get_contents` / `tracked_get_contents` as one pure fetch (see the section
comment: against an immutable host the cache is the identity). -/
def service_get_contents (h : Host) (stored : Option String) (path : String)
    (ref : Option String) : Except String GitContents :=
  repoGetContents h (effectiveRef h stored ref) path

def dropTrailingSlashes (s : String) : String :=
  String.mk ((s.toList.reverse.dropWhile (· = '/')).reverse)

/-- `urlparse(url).path` for the URL shapes the service receives: everything
after the scheme and network location (queries/fragments do not occur in the
inputs considered). -/
def urlPathPart (url : String) : String :=
  match strSplitOn url "://" with
  | [] => url
  | [_] => url
  | _ :: rest =>
    let after := joinWith "://" rest
    match strSplitOn after "/" with
    | [] => ""
    | _ :: ps => "/" ++ joinWith "/" ps

/-- `GitHubService._parse_github_url` (github_service.py:136-173):
`(repo_full_name, branch?, path?)` or `ValueError("Invalid GitHub URL format")`. -/
def parse_github_url (url : String) :
    Except String (String × Option String × Option String) :=
  let url := dropTrailingSlashes (trimStr url)
  let pathParts := ((strSplitOn (urlPathPart url) "/")).filter (· ≠ "")
  match pathParts with
  | owner :: repoName :: rest =>
    let repoFullName := owner ++ "/" ++ (strReplace repoName ".git" "")
    match rest with
    | [] => .ok (repoFullName, none, none)
    | p2 :: rest2 =>
      if p2 = "tree" || p2 = "blob" then
        match rest2 with
        | [] => .ok (repoFullName, none, none)
        | b :: rest3 =>
          .ok (repoFullName, some b,
               if rest3.isEmpty then none else some (joinWith "/" rest3))
      else
        .ok (repoFullName, some p2,
             if rest2.isEmpty then none else some (joinWith "/" rest2))
  | _ => .error "Invalid GitHub URL format"

/-- `GitHubService._handle_branch_error` (github_service.py:227-238).  The
method's own `except Exception` catches the `"Branch ... not found in
repository"` exception it just raised (and any `get_branches` failure) and
re-raises `"Could not verify branch ..."`; the branch list reaches only the
log, never the surfaced error.  When the branch *is* in the list the method
returns normally and the run continues with no stored SHA. -/
def handle_branch_error (h : Host) (branch : String) : Except String Unit :=
  match h.branchList with
  | none => .error ("Could not verify branch " ++ branch)
  | some bs =>
    if bs.contains branch then .ok ()
    else .error ("Could not verify branch " ++ branch)

structure CodeFileEntry where
  path : String
  size : Nat
  type : String
  sha : String
  deriving Repr, DecidableEq

structure StructureInfo where
  file_types : List (String × Nat)
  directories : List String
  total_files : Nat
  code_files : List CodeFileEntry
  deriving Repr, DecidableEq

def emptyStructure : StructureInfo := ⟨[], [], 0, []⟩

/-- Python dict counter update (insertion-ordered). -/
def bumpExt : List (String × Nat) → String → List (String × Nat)
  | [], ext => [(ext, 1)]
  | (e, n) :: rest, ext =>
    if e = ext then (e, n + 1) :: rest else (e, n) :: bumpExt rest ext

mutual

def FsTree.size : FsTree → Nat
  | .file _ _ _ _ => 1
  | .dir _ ch => 1 + FsTree.sizeList ch

def FsTree.sizeList : List FsTree → Nat
  | [] => 0
  | t :: ts => FsTree.size t + FsTree.sizeList ts

end

/-- The recursive `process_contents` of
`GitHubService._analyze_repository_structure` (github_service.py:304-378),
walking the (immutable) host tree: per item, the sub-path filter, directory
recursion (record the directory, then descend), and file counting with the
raw `Path(...).suffix` histogram key.  Fuel-driven: `FsTree.sizeList ts + 1`
fuel strictly dominates both the descent into a directory's children and the
continuation with the remaining siblings. -/
def walkTreesF (filterPath : Option String) :
    Nat → List FsTree → String → StructureInfo → StructureInfo
  | _, [], _, st => st
  | 0, _, _, st => st
  | fuel + 1, t :: rest, pref, st =>
    let p := joinPath pref t.name
    let skip :=
      match filterPath with
      | some fp => fp ≠ "" && !(isPrefixL fp.toList p.toList)
      | none => false
    if skip then walkTreesF filterPath fuel rest pref st
    else
      match t with
      | .file _ sz sha _ =>
        let ext := pathSuffix p
        let st := { st with total_files := st.total_files + 1,
                            file_types := bumpExt st.file_types ext }
        let st := if is_code_file p then
            { st with code_files := st.code_files ++ [⟨p, sz, ext, sha⟩] }
          else st
        walkTreesF filterPath fuel rest pref st
      | .dir _ ch =>
        let st := { st with directories := st.directories ++ [p] }
        let st := walkTreesF filterPath fuel ch p st
        walkTreesF filterPath fuel rest pref st

def walkTrees (filterPath : Option String) (ts : List FsTree) (pref : String)
    (st : StructureInfo) : StructureInfo :=
  walkTreesF filterPath (FsTree.sizeList ts + 1) ts pref st

/-- Parent prefix of a full path (for the single-file initial case). -/
def parentDirOf (p : String) : String :=
  joinWith "/" (((strSplitOn p "/").filter (· ≠ "")).dropLast)

/-- `GitHubService._analyze_repository_structure`: initial fetch at the subpath
(or root) with ref `self._current_commit_sha if self._current_commit_sha else
branch`, then the recursive walk; a failed initial listing is caught and yields
the empty structure. -/
def analyze_repository_structure (h : Host) (stored : Option String)
    (branch pathOpt : Option String) : StructureInfo :=
  let initial := pathOpt.getD ""
  match h.fsAt (effectiveRef h stored (refArgOf stored branch)) with
  | none => emptyStructure
  | some roots =>
    if initial = "" then walkTrees pathOpt roots "" emptyStructure
    else
      match descendPath roots "" ((strSplitOn initial "/").filter (· ≠ "")) with
      | some (_, .dir _ ch) => walkTrees pathOpt ch initial emptyStructure
      | some (full, t) => walkTrees pathOpt [t] (parentDirOf full) emptyStructure
      | none => emptyStructure

structure DepsInfo where
  entries : List (String × Option String)
  flags : List String
  deriving Repr, DecidableEq

def depUpdate : List (String × Option String) → String → String → List (String × Option String)
  | [], k, v => [(k, some v)]
  | (k0, v0) :: rest, k, v =>
    if k0 = k then (k0, some v) :: rest else (k0, v0) :: depUpdate rest k v

/-- `GitHubService._analyze_dependencies` (github_service.py:388-448): the four
manifest lookups (key = name with `.`/`-` replaced by `_`, lower-cased; a
directory response fails the in-`try` decode and is skipped), then the five
existence flags (`has_<name with . → _, lower-cased>`; any truthy response —
a file, or a nonempty listing — sets the flag). -/
def analyze_dependencies (h : Host) (stored branch : Option String) : DepsInfo :=
  let refArg := refArgOf stored branch
  let init : List (String × Option String) :=
    [("package_json", none), ("requirements_txt", none), ("pipfile", none), ("poetry", none)]
  let munge := fun (s : String) => lowerStr (strReplace (strReplace s "." "_") "-" "_")
  let entries :=
    ["package.json", "requirements.txt", "Pipfile", "pyproject.toml"].foldl
      (fun acc nm =>
        match service_get_contents h stored nm refArg with
        | .ok (.one item) => depUpdate acc (munge nm) item.content
        | _ => acc) init
  let flags :=
    ["yarn.lock", "package-lock.json", "poetry.lock", "Pipfile.lock", "setup.py"].foldl
      (fun acc nm =>
        match service_get_contents h stored nm refArg with
        | .ok (.one _) => acc ++ ["has_" ++ lowerStr (strReplace nm "." "_")]
        | .ok (.many items) =>
          if items.isEmpty then acc else acc ++ ["has_" ++ lowerStr (strReplace nm "." "_")]
        | _ => acc) []
  ⟨entries, flags⟩

/-- `GitHubService._get_readme_content` (github_service.py:508-536): tries
`README.md`, `README.rst`, `README`, `README.txt` — at the repository root, in
that order; the `path` argument is accepted but never used.  A directory
response fails the in-`try` decode (`AttributeError`) and is skipped.  Returns
`none`, not an error, when nothing resolves. -/
def readmeTry (h : Host) (stored refArg : Option String) : List String → Option String
  | [] => none
  | nm :: rest =>
    match service_get_contents h stored nm refArg with
    | .ok (.one item) => some item.content
    | _ => readmeTry h stored refArg rest

def get_readme_content (h : Host) (stored branch : Option String)
    (_pathOpt : Option String) : Option String :=
  readmeTry h stored (refArgOf stored branch)
    ["README.md", "README.rst", "README", "README.txt"]

/-- The amended README contract, stated from the amended claim's words: try
`README.md`, `README.rst`, `README`, `README.txt` at the repository root in
that order (the subpath is ignored), return the first that resolves to a file,
`none` otherwise.  Compared against `get_readme_content` in the C9 theorem. -/
def readmeTryOne (h : Host) (stored : Option String) (refArg : Option String)
    (nm : String) : Option String :=
  match service_get_contents h stored nm refArg with
  | .ok (.one item) => some item.content
  | _ => none

def readmeSpecChain (h : Host) (stored branch : Option String) : Option String :=
  match readmeTryOne h stored (refArgOf stored branch) "README.md" with
  | some c => some c
  | none =>
    match readmeTryOne h stored (refArgOf stored branch) "README.rst" with
    | some c => some c
    | none =>
      match readmeTryOne h stored (refArgOf stored branch) "README" with
      | some c => some c
      | none => readmeTryOne h stored (refArgOf stored branch) "README.txt"

/-! ## `_analyze_code_relationships` and `analyze_repository` -/

/-- A leftmost match of `import\s+(\S+)` starting at the head of `cs`:
`(captured token, total matched length)`. -/
def matchPyImportAt (cs : List Char) : Option (String × Nat) :=
  if cs.take 6 = "import".toList then
    let rest := cs.drop 6
    let wsN := (rest.takeWhile isSpaceChar).length
    if wsN = 0 then none
    else
      let tok := (rest.drop wsN).takeWhile (fun c => !isSpaceChar c)
      if tok.isEmpty then none
      else some (String.mk tok, 6 + wsN + tok.length)
  else none

/-- A leftmost match of `from\s+(\S+)\s+import` starting at the head of `cs`
(the greedy `\S+` cannot backtrack into whitespace, so the match is the maximal
non-space run). -/
def matchPyFromAt (cs : List Char) : Option (String × Nat) :=
  if cs.take 4 = "from".toList then
    let rest := cs.drop 4
    let wsN := (rest.takeWhile isSpaceChar).length
    if wsN = 0 then none
    else
      let tok := (rest.drop wsN).takeWhile (fun c => !isSpaceChar c)
      if tok.isEmpty then none
      else
        let rest2 := rest.drop (wsN + tok.length)
        let ws2 := (rest2.takeWhile isSpaceChar).length
        if ws2 = 0 then none
        else if (rest2.drop ws2).take 6 = "import".toList then
          some (String.mk tok, 4 + wsN + tok.length + ws2 + 6)
        else none
  else none

/-- `re.findall` for a head-matcher: leftmost, non-overlapping, continuing
after each match end (fuel-driven structural recursion; each step consumes at
least one character, so `cs.length` fuel always suffices). -/
def findallWithF (m : List Char → Option (String × Nat)) : Nat → List Char → List String
  | _, [] => []
  | 0, _ => []
  | fuel + 1, c :: rest =>
    match m (c :: rest) with
    | some (tok, len) => tok :: findallWithF m fuel (rest.drop (len - 1))
    | none => findallWithF m fuel rest

def findallWith (m : List Char → Option (String × Nat)) (cs : List Char) : List String :=
  findallWithF m cs.length cs

/-- The Python import extraction of `_analyze_code_relationships`
(github_service.py:475-482): `findall` of `from\s+(\S+)\s+import` first, then
of `import\s+(\S+)`, concatenated in that pattern order. -/
def pyImportsOf (content : String) : List String :=
  findallWith matchPyFromAt content.toList ++ findallWith matchPyImportAt content.toList

/-- A match of `import\s+(?:{[^}]+}|[^;]+)\s+from\s+['"]([^'"]+)['"]` starting
at the head of `cs`, capturing the quoted module and the matched length.  The
greedy middle is modelled by taking the last feasible `\s+from\s+['"]...['"]`
completion; this agrees with the regex on the repository's one-statement import
lines (no theorem below depends on this matcher). -/
def matchJsImportAt (cs : List Char) : Option (String × Nat) :=
  if cs.take 6 = "import".toList then
    let rest := cs.drop 6
    let wsN := (rest.takeWhile isSpaceChar).length
    if wsN = 0 then none
    else
      let body := rest.drop wsN
      let candidates := (List.range body.length).filterMap (fun j =>
        let mid := body.take j
        let midOk :=
          (!mid.isEmpty && !mid.contains ';') ||
          (match mid with
           | '{' :: inner =>
             match inner.reverse with
             | '}' :: innerRev => !innerRev.isEmpty && !innerRev.contains '}'
             | _ => false
           | _ => false)
        if !midOk then none
        else
          let tail := body.drop j
          let ws2 := (tail.takeWhile isSpaceChar).length
          if ws2 = 0 then none
          else if (tail.drop ws2).take 4 = "from".toList then
            let t5 := tail.drop (ws2 + 4)
            let ws3 := (t5.takeWhile isSpaceChar).length
            if ws3 = 0 then none
            else
              match t5.drop ws3 with
              | q :: t6 =>
                if isQuote q then
                  let modChars := t6.takeWhile (fun c => !(isQuote c))
                  match t6.drop modChars.length with
                  | q2 :: _ =>
                    if isQuote q2 && !modChars.isEmpty then
                      some (String.mk modChars,
                            6 + wsN + j + ws2 + 4 + ws3 + 1 + modChars.length + 1)
                    else none
                  | [] => none
                else none
              | [] => none
          else none)
      candidates.getLast?
  else none

def jsRelImportsOf (content : String) : List String :=
  findallWith matchJsImportAt content.toList

/-- `len(content.splitlines())` for `\n`-separated text: a trailing newline does
not open a final empty line (unlike `split('\n')`). -/
def splitlinesLen (s : String) : Nat :=
  if s = "" then 0
  else
    let parts := linesOf s
    if parts.getLastD "" = "" then parts.length - 1 else parts.length

/-- `list(set(xs))` — CPython iterates a `str` set in salted-hash order; every
list reaching this in a theorem below has at most one element, where all orders
coincide.  Modelled as first-occurrence deduplication. -/
def pySetList (xs : List String) : List String := xs.dedup

structure CodeAnalysisEntry where
  size : Nat
  type : String
  line_count : Nat
  deriving Repr, DecidableEq

/-- `component_hierarchy` is created as `{}` and never written; it is omitted. -/
structure Relationships where
  imports_graph : List (String × List String)
  entry_points : List String
  code_analysis : List (String × CodeAnalysisEntry)
  deriving Repr, DecidableEq

/-- `GitHubService._analyze_code_relationships` as *defined*
(github_service.py:450-506, signature `(self, repo, code_files)`): each file's
content is fetched with `repo.get_contents(file_info['path'])` — **no `ref`**
(line 463), i.e. from the current default-branch HEAD, never from the pinned
commit SHA; a failed fetch skips the file. -/
def analyze_code_relationships (h : Host) (code_files : List CodeFileEntry) :
    Relationships :=
  code_files.foldl (fun rel fi =>
    match repoGetContents h none fi.path with
    | .ok (.one item) =>
      let content := item.content
      let ext := lowerStr fi.type
      let imports :=
        if ext = ".py" then pyImportsOf content
        else if [".js", ".jsx", ".ts", ".tsx"].contains ext then jsRelImportsOf content
        else []
      let rel :=
        if imports.isEmpty then rel
        else { rel with imports_graph := rel.imports_graph ++ [(fi.path, pySetList imports)] }
      let rel :=
        if containsSub (lowerStr fi.path) "main" || containsSub (lowerStr fi.path) "index" then
          { rel with entry_points := rel.entry_points ++ [fi.path] }
        else rel
      { rel with code_analysis :=
          rel.code_analysis ++ [(fi.path, ⟨fi.size, fi.type, splitlinesLen content⟩)] }
    | _ => rel)
    ⟨[], [], []⟩

/-- `GitHubService._process_code_files` (github_service.py:259-302) begins with
`await self._analyze_code_relationships(repo, code_files, self._current_commit_sha)`
— three arguments to a method defined as
`def _analyze_code_relationships(self, repo, code_files)` (line 450).  The call
raises `TypeError` before any work (and even with matching arity, `await` of
the plain dict returned by the sync method would raise `TypeError`).  The exact
CPython message text varies slightly by version. -/
def arity_type_error : String :=
  "_analyze_code_relationships() takes 3 positional arguments but 4 were given"

def process_code_files : Except String Unit := .error arity_type_error

structure RepoInfo where
  name : String
  full_name : String
  description : String
  default_branch : String
  current_branch : String
  current_path : Option String
  language : String
  last_updated : String
  stars : Nat
  forks : Nat
  size : Nat
  open_issues : Nat
  topics : List String
  visibility : String
  structure_info : StructureInfo
  dependencies : DepsInfo
  readme : Option String
  deriving Repr

/-- `GitHubService._gather_basic_info` (github_service.py:240-257), with the
structure/dependency/readme slots still empty. -/
def gather_basic_info (h : Host) (branch pathOpt : Option String) : RepoInfo :=
  { name := h.meta.name
    full_name := h.meta.fullName
    description := h.meta.description
    default_branch := h.meta.defaultBranch
    current_branch := branch.getD h.meta.defaultBranch
    current_path := pathOpt
    language := h.meta.language
    last_updated := h.meta.lastUpdated
    stars := h.meta.stars
    forks := h.meta.forks
    size := h.meta.size
    open_issues := h.meta.openIssues
    topics := h.meta.topics
    visibility := if h.meta.isPrivate then "private" else "public"
    structure_info := emptyStructure
    dependencies := ⟨[], []⟩
    readme := none }

/-- `GitHubService.analyze_repository` (github_service.py:175-225): URL parse,
one-time branch → SHA resolution (with `_handle_branch_error` on failure),
structure walk / dependency scan / README lookup, then — whenever any code file
was found — the `_process_code_files` call, whose first statement raises (see
`arity_type_error`).  The surrounding `except` re-raises every failure as
`"Error analyzing repository: ..."`. -/
def analyze_repository_run (h : Host) (repo_url : String) : Except String RepoInfo :=
  match parse_github_url repo_url with
  | .error e => .error e
  | .ok (_fullName, branch, pathOpt) =>
    let storedE : Except String (Option String) :=
      match branch with
      | none => .ok none
      | some b =>
        match h.getBranch b with
        | some sha => .ok (some sha)
        | none =>
          match handle_branch_error h b with
          | .ok _ => .ok none
          | .error e => .error e
    match storedE with
    | .error e => .error e
    | .ok stored =>
      let structureInfo := analyze_repository_structure h stored branch pathOpt
      let deps := analyze_dependencies h stored branch
      let readme := get_readme_content h stored branch pathOpt
      let info := { gather_basic_info h branch pathOpt with
                    structure_info := structureInfo
                    dependencies := deps
                    readme := readme }
      if structureInfo.code_files.isEmpty then .ok info
      else
        match process_code_files with
        | .ok _ => .ok info
        | .error e => .error e

def analyze_repository (h : Host) (repo_url : String) : Except String RepoInfo :=
  match analyze_repository_run h repo_url with
  | .ok i => .ok i
  | .error e => .error ("Error analyzing repository: " ++ e)

/-! ## Concrete hosts for the repository-analysis scenarios -/

def demoMeta : RepoMeta :=
  { name := "demo", fullName := "acme/demo", description := "demo repo",
    defaultBranch := "main", language := "Python",
    lastUpdated := "2026-01-01T00:00:00", stars := 0, forks := 0, size := 1,
    openIssues := 0, topics := [], isPrivate := false }

/-- The three-file synthetic repository of the spec's concrete scenario 1. -/
def threeFileHost : Host :=
  { meta := demoMeta
    defaultFs :=
      [ .file "README.md" 7 "shaR" "# Demo\n"
      , .file "main.py" 48 "shaM" "import os\n\ndef run():\n    pass\n\nclass App:\n    pass\n"
      , .file "utils.js" 29 "shaU" "const add = (a, b) => a + b;\n" ]
    refFs := fun _ => none
    getBranch := fun _ => none
    branchList := some ["main"] }

def threeFileUrl : String := "https://github.com/acme/demo"

def pinnedSha : String := "aaaaaaaaaaaaaaaaaaaaaaaaaaaaaaaaaaaaaaaa"

/-- A host whose branch `dev` was resolved to `pinnedSha` at the start of a
run, after which the default-branch HEAD advanced: the snapshot at `pinnedSha`
has `a.py` = `"import alpha"`, the current HEAD has `a.py` = `"import beta"`. -/
def movedHeadHost : Host :=
  { meta := demoMeta
    defaultFs := [.file "a.py" 11 "shaNew" "import beta"]
    refFs := fun r =>
      if r = pinnedSha then some [.file "a.py" 12 "shaOld" "import alpha"] else none
    getBranch := fun b => if b = "dev" then some pinnedSha else none
    branchList := some ["main", "dev"] }

def movedHeadFiles : List CodeFileEntry := [⟨"a.py", 12, ".py", "shaOld"⟩]

/-- A host on which `repo.get_branch` always raises and the branch list is
`["main", "dev"]`. -/
def twoBranchHost : Host :=
  { meta := demoMeta
    defaultFs := []
    refFs := fun _ => none
    getBranch := fun _ => none
    branchList := some ["main", "dev"] }

def missingBranchUrl : String := "https://github.com/acme/demo/tree/nope"

/-- A host whose only README lives under the subpath `docs/`. -/
def docsOnlyHost : Host :=
  { meta := demoMeta
    defaultFs := [.dir "docs" [.file "README.md" 11 "shaD" "Docs readme"]]
    refFs := fun _ => none
    getBranch := fun _ => none
    branchList := some ["main"] }

/-! ## `src/vector_store/qdrant_manager.py` — point identity and upsert

The Qdrant client itself is external; `store_code_vectors` is modelled against
an explicit point store (`client.upsert` overwrites a point with an existing
id).  `hash` is CPython's built-in salted string hash — deterministic within
one process, randomised across processes (`PYTHONHASHSEED`); it is therefore a
*parameter* `pyHash` of the model, one value per process run. -/

abbrev PyDict := List (String × String)

def dictGetOpt (d : PyDict) (k : String) : Option String :=
  (d.find? (fun kv => kv.1 = k)).map (fun kv => kv.2)

def dictGet (d : PyDict) (k dflt : String) : String := (dictGetOpt d k).getD dflt

def dictSet : PyDict → String → String → PyDict
  | [], k, v => [(k, v)]
  | (k0, v0) :: rest, k, v =>
    if k0 = k then (k0, v) :: rest else (k0, v0) :: dictSet rest k v

/-- Models `str(uuid.uuid5(uuid.NAMESPACE_DNS, name))`: a fixed injective
encoding of `name` (uuid5 is SHA-1 based; collisions are out of model). -/
def uuid5_dns (name : String) : String := "uuid5-dns:" ++ name

/-- `content_hash = str(hash(meta.get('content', ''))); point_id =
str(uuid.uuid5(uuid.NAMESPACE_DNS, content_hash))` (qdrant_manager.py:116-118).
Note the key is `'content'` — the chunk metadata dicts produced by
`CodeProcessor` / `_prepare_text_for_embedding` carry `'raw_content'`, never
`'content'`. -/
def pointIdOf (pyHash : String → Int) (meta : PyDict) : String :=
  uuid5_dns (toString (pyHash (dictGet meta "content" "")))

structure PointPayload where
  file_path : String
  code_type : String
  content : String
  language : String
  last_modified : String
  metadata : PyDict
  deriving Repr, DecidableEq

/-- Vector entries are opaque payload to every claim; the embedding vector is
modelled as a list of integers. -/
structure QPoint where
  id : String
  vector : List Int
  payload : PointPayload
  deriving Repr, DecidableEq

def buildPoint (pyHash : String → Int) (v : List Int) (meta : PyDict) : QPoint :=
  { id := pointIdOf pyHash meta
    vector := v
    payload :=
      { file_path := dictGet meta "file_path" ""
        code_type := dictGet meta "code_type" ""
        content := dictGet meta "content" ""
        language := dictGet meta "language" ""
        last_modified := dictGet meta "last_modified" ""
        metadata := meta } }

/-- `client.upsert` of one point: overwrite by id, else append. -/
def upsertOne (store : List QPoint) (p : QPoint) : List QPoint :=
  match store with
  | [] => [p]
  | q :: rest => if q.id = p.id then p :: rest else q :: upsertOne rest p

/-- The batch loop of `QdrantManager.store_code_vectors`
(qdrant_manager.py:102-143): `batch_size = 100`, each batch's points built in
order and upserted (fuel-driven; one batch of ≥ 1 pair per step). -/
def storeBatchesF (pyHash : String → Int) :
    Nat → List (List Int × PyDict) → List QPoint → List QPoint
  | _, [], store => store
  | 0, _, store => store
  | fuel + 1, p :: rest, store =>
    let batch := (p :: rest).take 100
    let points := batch.map (fun vm => buildPoint pyHash vm.1 vm.2)
    storeBatchesF pyHash fuel (rest.drop 99) (points.foldl upsertOne store)

def store_code_vectors (pyHash : String → Int) (store : List QPoint)
    (embeddings : List (List Int)) (metadata : List PyDict) : List QPoint :=
  storeBatchesF pyHash (embeddings.zip metadata).length (embeddings.zip metadata) store

/-! ## `src/vector_store/embeddings_manager.py` -/

/-- `EmbeddingsManager._prepare_text_for_embedding`
(embeddings_manager.py:188-212): mutates the metadata dict with
`raw_content = code` and renders the header + full content. -/
def prepare_text_for_embedding (code : String) (meta : PyDict) : String × PyDict :=
  let meta := dictSet meta "raw_content" code
  let parts :=
    [ "File: " ++ dictGet meta "file" ""
    , "Type: " ++ dictGet meta "code_type" "unknown"
    , "Content Type: " ++ dictGet meta "type" "unknown" ]
  let parts :=
    match dictGetOpt meta "line_start", dictGetOpt meta "line_end" with
    | some s, some e => parts ++ ["Lines: " ++ s ++ "-" ++ e]
    | _, _ => parts
  let parts :=
    match dictGetOpt meta "name" with
    | some n => if n ≠ "" then parts ++ ["Name: " ++ n] else parts
    | none => parts
  (joinLines parts ++ "\n\nFull Content:\n" ++ code, meta)

/-- A raw hit from the external Qdrant client's `search` (score plus payload). -/
structure ClientHit where
  score : ℚ
  payload : PointPayload
  deriving Repr, DecidableEq

structure QdrantRes where
  file_path : String
  code_type : String
  content : String
  similarity_score : ℚ
  metadata : PyDict
  deriving Repr, DecidableEq

/-- The result formatting of `QdrantManager.search_code`
(qdrant_manager.py:168-180): order-preserving, score-preserving. -/
def qdrant_search_format (hits : List ClientHit) : List QdrantRes :=
  hits.map (fun h =>
    ⟨h.payload.file_path, h.payload.code_type, h.payload.content, h.score,
     h.payload.metadata⟩)

structure ProcessedResult where
  file : String
  type : String
  content : String
  similarity_score : ℚ
  metadata : PyDict
  deriving Repr, DecidableEq

/-- The `content` fallback chain of `EmbeddingsManager.search_code`
(embeddings_manager.py:148-153): `result['content'] or result['raw_content']
(never present) or metadata['raw_content'] or metadata.get('content','')`,
with Python falsiness on empty strings. -/
def pickContent (r : QdrantRes) : String :=
  if r.content ≠ "" then r.content
  else
    let c3 := (dictGetOpt r.metadata "raw_content").getD ""
    if c3 ≠ "" then c3 else dictGet r.metadata "content" ""

def to_processed (r : QdrantRes) : ProcessedResult :=
  { file := r.file_path, type := r.code_type, content := pickContent r,
    similarity_score := r.similarity_score, metadata := r.metadata }

/-- Stable descending insertion by score: extensionally equal to Python's
stable `list.sort(key=lambda x: x['similarity_score'], reverse=True)` (any two
stable sorts agree). -/
def insertDescByScore (x : ProcessedResult) : List ProcessedResult → List ProcessedResult
  | [] => [x]
  | y :: ys =>
    if y.similarity_score ≤ x.similarity_score then x :: y :: ys
    else y :: insertDescByScore x ys

def sortDescByScore : List ProcessedResult → List ProcessedResult
  | [] => []
  | x :: xs => insertDescByScore x (sortDescByScore xs)

/-- `EmbeddingsManager.search_code` (embeddings_manager.py:97-170) after the
client returns: format (`QdrantManager.search_code`), process, sort descending
by score, truncate to `limit`. -/
def search_code_results (hits : List ClientHit) (limit : Nat) : List ProcessedResult :=
  (sortDescByScore ((qdrant_search_format hits).map to_processed)).take limit

/-- Descending-by-score ordering relation on processed results. -/
def scoreGe (a b : ProcessedResult) : Prop := b.similarity_score ≤ a.similarity_score

/-! ## `src/chat_service.py` — retry loop of `generate_response` -/

def containsOverloaded (e : String) : Bool := containsSub (lowerStr e) "overloaded"

/-- The `for attempt in range(max_retries)` loop of
`ChatService.generate_response` (chat_service.py:103-153): `max_retries = 3`,
`retry_delay = 2`, `wait_time = retry_delay * (attempt + 1)`; an
`"overloaded"` failure with `attempt < max_retries - 1` sleeps and retries,
anything else re-raises.  `f attempt` is the outcome of the `attempt`-th API
call; the second component collects the sleep delays.  `left` is the number of
loop iterations remaining (`left = 3 - attempt`); the `left = 0` case is
unreachable because the last admitted attempt never continues. -/
def chatLoop (f : Nat → Except String String) : Nat → Nat → Except String String × List Nat
  | _, 0 => (.error "range exhausted", [])
  | attempt, left + 1 =>
    match f attempt with
    | .ok t => (.ok t, [])
    | .error e =>
      if containsOverloaded e && attempt < 3 - 1 then
        let r := chatLoop f (attempt + 1) left
        (r.1, 2 * (attempt + 1) :: r.2)
      else (.error e, [])

/-- `ChatService.generate_response`: the retry loop inside the outer `except`,
which re-raises as `"Error generating response: ..."`. -/
def generate_response (f : Nat → Except String String) :
    Except String String × List Nat :=
  let r := chatLoop f 0 3
  (match r.1 with
   | .ok t => .ok t
   | .error e => .error ("Error generating response: " ++ e), r.2)

/-! ## Remaining concrete inputs for witnesses and counterexamples -/

/-- A `.py` file on which `ast.parse` raises. -/
def badPySrc : String := "def broken(:\n    pass\nx = (\n"

/-- Chunk metadata dicts as produced by `CodeProcessor._process_python`
(string-valued projection; the point-identity code reads only string keys). -/
def chunkMetaA : PyDict :=
  [("file", "a.py"), ("type", "function"), ("code_type", "python")]

def chunkMetaB : PyDict :=
  [("file", "b.py"), ("type", "class"), ("code_type", "python")]

/-- Client hits for the search witness (scores 1, 3, 2 — all ≥ threshold 1). -/
def hits5 : List ClientHit :=
  [ ⟨1, ⟨"a.py", "python", "x", "py", "", []⟩⟩
  , ⟨3, ⟨"b.py", "python", "y", "py", "", []⟩⟩
  , ⟨2, ⟨"c.py", "python", "", "py", "", [("raw_content", "zz")]⟩⟩ ]

/-- JS input with one pre-boundary line. -/
def jsWitnessSrc : String := "let x = 1;\nfunction foo() \x7b\n\x7d"

def c10WitnessChunk : Chunk :=
  (process_file noParse "w.js" jsWitnessSrc).getLastD
    ("", { file := "", type := "", code_type := "", importance := 0 })

/-- Retry outcomes for the chat witness: first call overloaded, second call
succeeds. -/
def chatWitnessCalls : Nat → Except String String :=
  fun n => if n = 0 then .error "Overloaded: please retry" else .ok "done"

/-! # Helper lemmas -/

theorem tilesFrom_nil_iff (s n : Nat) : tilesFrom s n [] = true ↔ s = n + 1 := by
  simp [tilesFrom]

theorem tilesFrom_cons_iff (s n a b : Nat) (rest : List (Nat × Nat)) :
    tilesFrom s n ((a, b) :: rest) = true ↔
      (a = s ∧ s ≤ b ∧ b ≤ n ∧ b + 1 - s ≤ 50 ∧ tilesFrom (b + 1) n rest = true) := by
  simp [tilesFrom, Bool.and_eq_true, and_assoc]

/-- The 50-line windows `(50j+1, min (50j+50) n)` for `j = k, …, k+c-1` tile
lines `50k+1 .. n` exactly, provided `n` lies in the last window. -/
theorem tilesFrom_windows : ∀ (c k n : Nat), 50 * k < n → n ≤ 50 * k + 50 * c →
    50 * k + 50 * c < n + 50 →
    tilesFrom (50 * k + 1) n
      ((List.range' k c).map (fun j => (50 * j + 1, min (50 * j + 50) n))) = true := by
  intro c
  induction c with
  | zero => intro k n h1 h2 _; exfalso; omega
  | succ c ih =>
    intro k n h1 h2 h3
    rw [List.range'_succ]
    simp only [List.map_cons]
    rw [tilesFrom_cons_iff]
    refine ⟨rfl, by omega, by omega, by omega, ?_⟩
    by_cases hc : n ≤ 50 * k + 50
    · have hc0 : c = 0 := by omega
      subst hc0
      have hmin : min (50 * k + 50) n = n := by omega
      rw [hmin]
      simp [tilesFrom_nil_iff]
    · have hmin : min (50 * k + 50) n = 50 * k + 50 := by omega
      rw [hmin]
      have h50 : 50 * k + 50 = 50 * (k + 1) := by ring
      rw [h50]
      exact ih (k + 1) n (by omega) (by omega) (by omega)

/-- Invariant of the open-chunk accumulator: once a chunk is open, every chunk
the scan will still emit starts at or after the open chunk's first line. -/
theorem jsScan_cur_bound (fp : String) (r : Bool) :
    ∀ (lines : List String) (i : Nat) (cur : List String), cur ≠ [] →
      ∀ c ∈ jsScan fp r lines i cur,
        ∃ s, c.2.line_start = some s ∧ i + 1 - cur.length ≤ s := by
  intro lines
  induction lines with
  | nil =>
    intro i cur hne c hc
    have hE : cur.isEmpty = false := by simpa [List.isEmpty_iff] using hne
    simp only [jsScan, hE, Bool.false_eq_true, if_false] at hc
    simp only [process_chunk, List.mem_singleton] at hc
    subst hc
    exact ⟨i + 1 - cur.length, rfl, le_refl _⟩
  | cons l rest ih =>
    intro i cur hne c hc
    have hE : cur.isEmpty = false := by simpa [List.isEmpty_iff] using hne
    by_cases hr : (r && reactLinePat l) = true
    · simp only [jsScan, hr, if_true] at hc
      obtain ⟨s, hs, hb⟩ := ih (i + 1) [l] (by simp) c hc
      exact ⟨s, hs, by simp at hb; omega⟩
    · by_cases hcl : classLinePat l = true
      · simp only [jsScan, hr, hcl, Bool.false_eq_true, if_false, if_true, hE,
          List.mem_append] at hc
        rcases hc with hc1 | hc2
        · simp only [process_chunk, List.mem_singleton] at hc1
          subst hc1
          exact ⟨i + 1 - cur.length, rfl, le_refl _⟩
        · obtain ⟨s, hs, hb⟩ := ih (i + 1) [l] (by simp) c hc2
          exact ⟨s, hs, by simp at hb; omega⟩
      · by_cases hf : funcLinePat l = true
        · simp only [jsScan, hr, hcl, hf, Bool.false_eq_true, if_false, if_true, hE,
            List.mem_append] at hc
          rcases hc with hc1 | hc2
          · simp only [process_chunk, List.mem_singleton] at hc1
            subst hc1
            exact ⟨i + 1 - cur.length, rfl, le_refl _⟩
          · obtain ⟨s, hs, hb⟩ := ih (i + 1) [l] (by simp) c hc2
            exact ⟨s, hs, by simp at hb; omega⟩
        · simp only [jsScan, hr, hcl, hf, Bool.false_eq_true, if_false, hE] at hc
          obtain ⟨s, hs, hb⟩ := ih (i + 1) (cur ++ [l]) (by simp) c hc
          refine ⟨s, hs, ?_⟩
          simp [List.length_append] at hb
          omega

/-- Every chunk the scan emits from an empty accumulator starts at or after the
first boundary line; in particular no chunk exists when no line matches. -/
theorem jsScan_first_boundary (fp : String) (r : Bool) :
    ∀ (lines : List String) (i : Nat), ∀ c ∈ jsScan fp r lines i [],
      ∃ k s, jsFirstBoundary r lines = some k ∧ c.2.line_start = some s ∧ i + k + 1 ≤ s := by
  intro lines
  induction lines with
  | nil => intro i c hc; simp [jsScan] at hc
  | cons l rest ih =>
    intro i c hc
    by_cases hb : jsBoundaryPred r l = true
    · have hfb : jsFirstBoundary r (l :: rest) = some 0 := by
        simp [jsFirstBoundary, hb]
      by_cases hr : (r && reactLinePat l) = true
      · simp only [jsScan, hr, if_true] at hc
        obtain ⟨s, hs, hbnd⟩ := jsScan_cur_bound fp r rest (i + 1) [l] (by simp) c hc
        exact ⟨0, s, hfb, hs, by simp at hbnd; omega⟩
      · by_cases hcl : classLinePat l = true
        · simp only [jsScan, hr, hcl, Bool.false_eq_true, if_false, if_true,
            List.isEmpty_nil, List.nil_append] at hc
          obtain ⟨s, hs, hbnd⟩ := jsScan_cur_bound fp r rest (i + 1) [l] (by simp) c hc
          exact ⟨0, s, hfb, hs, by simp at hbnd; omega⟩
        · have hf : funcLinePat l = true := by
            simp only [jsBoundaryPred, Bool.or_eq_true] at hb
            rcases hb with (hb | hb) | hb
            · exact absurd hb hr
            · exact absurd hb hcl
            · exact hb
          simp only [jsScan, hr, hcl, hf, Bool.false_eq_true, if_false, if_true,
            List.isEmpty_nil, List.nil_append] at hc
          obtain ⟨s, hs, hbnd⟩ := jsScan_cur_bound fp r rest (i + 1) [l] (by simp) c hc
          exact ⟨0, s, hfb, hs, by simp at hbnd; omega⟩
    · have hbf : jsBoundaryPred r l = false := by simpa using hb
      simp only [jsBoundaryPred, Bool.or_eq_false_iff] at hbf
      obtain ⟨⟨h1, h2⟩, h3⟩ := hbf
      simp only [jsScan, h1, h2, h3, Bool.false_eq_true, if_false, List.isEmpty_nil,
        if_true] at hc
      obtain ⟨k, s, hk, hs, hbnd⟩ := ih (i + 1) c hc
      refine ⟨k + 1, s, ?_, hs, by omega⟩
      simp [jsFirstBoundary, h1, h2, h3, jsBoundaryPred, hk]

theorem mem_insertDescByScore {x z : ProcessedResult} :
    ∀ {l}, z ∈ insertDescByScore x l → z = x ∨ z ∈ l := by
  intro l
  induction l with
  | nil => intro h; simpa [insertDescByScore] using h
  | cons y ys ih =>
    intro h
    by_cases hc : y.similarity_score ≤ x.similarity_score
    · simp only [insertDescByScore, hc, if_true, List.mem_cons] at h
      rcases h with h | h
      · exact Or.inl h
      · exact Or.inr (List.mem_cons.mpr h)
    · simp only [insertDescByScore, hc, if_false, List.mem_cons] at h
      rcases h with h | h
      · right; simp [h]
      · rcases ih h with h' | h'
        · left; exact h'
        · right; simp [h']

theorem pairwise_insertDescByScore (x : ProcessedResult) :
    ∀ l, l.Pairwise scoreGe → (insertDescByScore x l).Pairwise scoreGe := by
  intro l
  induction l with
  | nil => intro _; simp [insertDescByScore, scoreGe]
  | cons y ys ih =>
    intro h
    rcases List.pairwise_cons.mp h with ⟨hy, hys⟩
    by_cases hc : y.similarity_score ≤ x.similarity_score
    · simp only [insertDescByScore, hc, if_true]
      refine List.pairwise_cons.mpr ⟨?_, h⟩
      intro z hz
      rcases List.mem_cons.mp hz with rfl | hz'
      · exact hc
      · exact le_trans (hy z hz') hc
    · simp only [insertDescByScore, hc, if_false]
      refine List.pairwise_cons.mpr ⟨?_, ih hys⟩
      intro z hz
      rcases mem_insertDescByScore hz with rfl | hz'
      · exact le_of_lt (lt_of_not_le hc)
      · exact hy z hz'

theorem pairwise_sortDescByScore : ∀ l, (sortDescByScore l).Pairwise scoreGe := by
  intro l
  induction l with
  | nil => simp [sortDescByScore]
  | cons x xs ih => exact pairwise_insertDescByScore x _ ih

theorem mem_sortDescByScore {z : ProcessedResult} :
    ∀ {l}, z ∈ sortDescByScore l → z ∈ l := by
  intro l
  induction l with
  | nil => intro h; simp [sortDescByScore] at h
  | cons x xs ih =>
    intro h
    rcases mem_insertDescByScore h with rfl | h'
    · simp
    · simp [ih h']

/-! # Claim theorems -/

/-- C1: the claim says every file-content fetch of an analysis run — including
the per-file retrieval of `_analyze_code_relationships` — passes the resolved
commit SHA.  The code violates it: `_analyze_code_relationships` fetches with
`repo.get_contents(path)` and **no ref** (github_service.py:463), so on a host
whose branch `dev` was pinned to `pinnedSha` (where `a.py` reads
`import alpha`) but whose HEAD then advanced (`a.py` now reads `import beta`),
the computed imports graph reflects the *moved HEAD*, not the pinned snapshot
— which would have produced `["alpha"]`.  (The caller even passes the SHA as a
third argument the method does not accept, github_service.py:262-266.) -/
theorem c1_relationship_fetch_ignores_pinned_sha :
    (analyze_code_relationships movedHeadHost movedHeadFiles).imports_graph
      = [("a.py", ["beta"])] ∧
    repoGetContents movedHeadHost none "a.py" =
      .ok (.one ⟨"a.py", false, 11, "shaNew", "import beta"⟩) ∧
    repoGetContents movedHeadHost (some pinnedSha) "a.py" =
      .ok (.one ⟨"a.py", false, 12, "shaOld", "import alpha"⟩) ∧
    pySetList (pyImportsOf "import alpha") = ["alpha"] ∧
    movedHeadHost.getBranch "dev" = some pinnedSha := by
  exact ⟨by decide, rfl, rfl, by decide, rfl⟩

/-- C2: the claim says the upsert point id is a stable pure function of the
chunk content, so distinct contents give distinct points.  In the code the id
is `uuid5(NAMESPACE_DNS, str(hash(meta.get('content', ''))))`
(qdrant_manager.py:116-118), but the metadata dicts reaching it (built by the
chunker and `_prepare_text_for_embedding`, which stores the code under
`raw_content`) never carry a `content` key — so for *every* chunk, whatever
the process's salted `hash` (`pyHash`), the id is the constant
`uuid5(str(hash("")))`: two chunks with different contents collapse to one
stored point.  (Across process runs even that constant changes, since `hash`
is salted per process.) -/
theorem c2_point_id_constant_for_all_chunks (pyHash : String → Int) :
    (store_code_vectors pyHash [] [[1], [2]]
      [(prepare_text_for_embedding "def alpha(): pass" chunkMetaA).2,
       (prepare_text_for_embedding "class Beta: pass" chunkMetaB).2]).length = 1 ∧
    pointIdOf pyHash (prepare_text_for_embedding "def alpha(): pass" chunkMetaA).2 =
      uuid5_dns (toString (pyHash "")) ∧
    pointIdOf pyHash (prepare_text_for_embedding "class Beta: pass" chunkMetaB).2 =
      uuid5_dns (toString (pyHash "")) ∧
    dictGetOpt (prepare_text_for_embedding "def alpha(): pass" chunkMetaA).2 "content" = none ∧
    dictGetOpt (prepare_text_for_embedding "class Beta: pass" chunkMetaB).2 "content" = none := by
  refine ⟨?_, rfl, rfl, rfl, rfl⟩
  show (upsertOne (upsertOne []
      (buildPoint pyHash [1] (prepare_text_for_embedding "def alpha(): pass" chunkMetaA).2))
      (buildPoint pyHash [2] (prepare_text_for_embedding "class Beta: pass" chunkMetaB).2)).length
      = 1
  have hid :
      (buildPoint pyHash [1] (prepare_text_for_embedding "def alpha(): pass" chunkMetaA).2).id =
      (buildPoint pyHash [2] (prepare_text_for_embedding "class Beta: pass" chunkMetaB).2).id :=
    rfl
  simp only [upsertOne, hid, if_true, List.length_cons, List.length_nil]

/-- C2 witness: the same fact at one concrete per-process hash function. -/
theorem c2_point_id_constant_witness :
    (store_code_vectors (fun s => (s.toList.length : Int)) [] [[1], [2]]
      [(prepare_text_for_embedding "def alpha(): pass" chunkMetaA).2,
       (prepare_text_for_embedding "class Beta: pass" chunkMetaB).2]).length = 1 :=
  (c2_point_id_constant_for_all_chunks (fun s => (s.toList.length : Int))).1

/-- C3: the claim says the pipeline on the three-file repository returns a
manifest with `total_files = 3` and `code_files = [main.py, utils.js]`.  The
structure walk does compute exactly that, but `analyze_repository` then calls
`_process_code_files`, whose first statement passes three arguments to the
two-parameter `_analyze_code_relationships` (github_service.py:262-266 vs
450) — a `TypeError` — so the whole analysis raises instead of returning. -/
theorem c3_pipeline_raises_type_error :
    analyze_repository threeFileHost threeFileUrl =
      .error ("Error analyzing repository: " ++ arity_type_error) ∧
    (analyze_repository_structure threeFileHost none none none).total_files = 3 ∧
    (analyze_repository_structure threeFileHost none none none).code_files.map
        (fun c => c.path) = ["main.py", "utils.js"] ∧
    ((analyze_repository_structure threeFileHost none none none).code_files.map
        (fun c => c.path)).contains "README.md" = false := by
  exact ⟨rfl, by decide, by decide, by decide⟩

/-- C4: for every input on which the language-specific strategy fails —
`ast.parse` raising on a `.py` file, or `_extract_block`'s `IndexError` on a
`.ts`/`.tsx` file — `process_file` does not raise: it returns the generic
chunking, whose chunks are all of type `generic` and whose line ranges tile
lines `1..n` in consecutive windows of at most 50 lines: no gaps, no overlaps,
100% coverage. -/
theorem c4_parse_failure_generic_tiling (pyAst : String → Option PyNode)
    (fp content : String)
    (hfail : (extOf fp = ".py" ∧ pyAst content = none) ∨
      ((extOf fp = ".ts" ∨ extOf fp = ".tsx") ∧
        process_typescript fp content (containsSub (extOf fp) "tsx") = .error ())) :
    process_file pyAst fp content = process_generic fp content ∧
    (∀ c ∈ process_file pyAst fp content, c.2.type = "generic") ∧
    tilesFrom 1 (linesOf content).length (rangesOf (process_file pyAst fp content)) = true := by
  have heq : process_file pyAst fp content = process_generic fp content := by
    rcases hfail with ⟨hext, hnone⟩ | ⟨hext, herr⟩
    · simp [process_file, hext, hnone]
    · rcases hext with hext | hext <;> rw [process_file] <;> simp [hext] <;>
        rw [hext] at herr <;> simp [herr]
  refine ⟨heq, ?_, ?_⟩
  · rw [heq]; intro c hc
    simp only [process_generic, List.mem_map] at hc
    obtain ⟨k, -, rfl⟩ := hc
    rfl
  · rw [heq]
    have hranges : rangesOf (process_generic fp content) =
        (List.range (((linesOf content).length + 49) / 50)).map
          (fun k => (50 * k + 1, min (50 * k + 50) (linesOf content).length)) := by
      simp [rangesOf, process_generic, List.map_map]
    rw [hranges]
    rcases Nat.eq_zero_or_pos (linesOf content).length with h0 | hpos
    · rw [h0]; simp [tilesFrom]
    · have hdiv1 : 50 * (((linesOf content).length + 49) / 50) ≤ (linesOf content).length + 49 := by
        have := Nat.div_mul_le_self ((linesOf content).length + 49) 50
        omega
      have hdiv2 : (linesOf content).length + 49 <
          ((linesOf content).length + 49) / 50 * 50 + 50 :=
        Nat.lt_div_mul_add (by omega)
      rw [List.range_eq_range']
      have := tilesFrom_windows (((linesOf content).length + 49) / 50) 0
        (linesOf content).length (by omega) (by omega) (by omega)
      simpa using this

/-- C4 witness: the fallback tiling on a concrete unparsable three-line file. -/
theorem c4_parse_failure_generic_tiling_witness :
    process_file noParse "bad.py" badPySrc = process_generic "bad.py" badPySrc ∧
    tilesFrom 1 (linesOf badPySrc).length
      (rangesOf (process_file noParse "bad.py" badPySrc)) = true := by
  have h := c4_parse_failure_generic_tiling noParse "bad.py" badPySrc (Or.inl ⟨rfl, rfl⟩)
  exact ⟨h.1, h.2.2⟩

/-- C5: whenever the external vector index honours its contract (every hit it
returns scores at least the configured threshold `t`), the processed search
results have non-increasing scores, contain nothing below `t`, and number at
most `limit`. -/
theorem c5_search_sorted_thresholded_limited (hits : List ClientHit) (limit : Nat)
    (t : ℚ) (hth : ∀ x ∈ hits, t ≤ x.score) :
    List.Chain' (fun a b => b.similarity_score ≤ a.similarity_score)
      (search_code_results hits limit) ∧
    (∀ r ∈ search_code_results hits limit, t ≤ r.similarity_score) ∧
    (search_code_results hits limit).length ≤ limit := by
  refine ⟨?_, ?_, ?_⟩
  · have hp : (search_code_results hits limit).Pairwise scoreGe :=
      List.Pairwise.sublist (List.take_sublist _ _) (pairwise_sortDescByScore _)
    exact hp.chain'
  · intro r hr
    have h1 : r ∈ sortDescByScore ((qdrant_search_format hits).map to_processed) :=
      List.take_subset _ _ hr
    have h2 := mem_sortDescByScore h1
    rcases List.mem_map.mp h2 with ⟨q, hq, rfl⟩
    rcases List.mem_map.mp hq with ⟨h0, hh0, rfl⟩
    simpa [to_processed, qdrant_search_format] using hth h0 hh0
  · simp only [search_code_results, List.length_take]
    exact min_le_left _ _

/-- C5 witness: threshold 1 and limit 2 on three concrete hits. -/
theorem c5_search_sorted_thresholded_limited_witness :
    List.Chain' (fun a b => b.similarity_score ≤ a.similarity_score)
      (search_code_results hits5 2) ∧
    (search_code_results hits5 2).length ≤ 2 := by
  have h := c5_search_sorted_thresholded_limited hits5 2 1 (by
    intro x hx
    simp only [hits5, List.mem_cons, List.not_mem_nil, or_false] at hx
    rcases hx with rfl | rfl | rfl <;> norm_num)
  exact ⟨h.1, h.2.2⟩

/-- C6 counterexample: on `def add(a, b):\n    return a + b` the single
function chunk's importance is 0.91 (here in hundredths: 91), which is *not*
between 0.7 and 0.9 — `0.8 + (1 - |0.5 - 31/500|) * 0.2 = 0.9124`, rounded to
0.91 — refuting the claim's importance range. -/
theorem c6_importance_exceeds_claimed_range :
    ((process_file addParser "x.py" addSrc).map (fun c => c.2.importance) = [91]) ∧
    ¬ (∀ c ∈ process_file addParser "x.py" addSrc,
        70 ≤ c.2.importance ∧ c.2.importance ≤ 90) := by
  exact ⟨by decide, by decide⟩

/-- C6 amended: chunking `def add(a, b):\n    return a + b` yields exactly one
chunk — a `function` chunk named `add` reproducing the whole source, with
importance 0.91 (between 0.7 and 1.0) — and no `imports` chunk. -/
theorem c6_single_function_chunk_amended :
    ((process_file addParser "x.py" addSrc).map
        (fun c => (c.2.type, c.2.name, c.2.importance)) =
      [("function", some "add", 91)]) ∧
    (∀ c ∈ process_file addParser "x.py" addSrc, c.2.type ≠ "imports") ∧
    (process_file addParser "x.py" addSrc).map (fun c => c.1) = [addSrc] ∧
    70 ≤ 91 ∧ 91 ≤ 100 := by
  exact ⟨by decide, by decide, by decide, by decide, by decide⟩

/-- C7 counterexample: on a host with branches `["main", "dev"]` and an
unresolvable requested branch `nope`, the surfaced error is
`"Error analyzing repository: Could not verify branch nope"` — the valid
branch names appear nowhere in it (they are only logged), refuting the claim
that the surfaced error includes the branch list. -/
theorem c7_error_lacks_branch_list :
    analyze_repository twoBranchHost missingBranchUrl =
      .error "Error analyzing repository: Could not verify branch nope" ∧
    twoBranchHost.branchList = some ["main", "dev"] ∧
    containsSub "Error analyzing repository: Could not verify branch nope" "main" = false ∧
    containsSub "Error analyzing repository: Could not verify branch nope" "dev" = false := by
  exact ⟨rfl, rfl, by decide, by decide⟩

/-- C7 amended: for every host on which the requested branch `nope` fails to
resolve and is absent from the branch list, `analyze_repository` aborts with
exactly `"Error analyzing repository: Could not verify branch nope"` — the
`"Branch ... not found"` exception (the one that would carry context) is
swallowed by `_handle_branch_error`'s own `except` and replaced by this fixed
message, which contains no branch names. -/
theorem c7_branch_error_amended (h : Host) (l : List String)
    (hb : h.getBranch "nope" = none) (hl : h.branchList = some l)
    (hn : l.contains "nope" = false) :
    analyze_repository h missingBranchUrl =
      .error "Error analyzing repository: Could not verify branch nope" := by
  have hp : parse_github_url missingBranchUrl = .ok ("acme/demo", some "nope", none) := rfl
  have hn' : ¬ ("nope" ∈ l) := by simpa using hn
  simp [analyze_repository, analyze_repository_run, hp, hb, handle_branch_error, hl, hn']

/-- C7 witness for the amended theorem at the concrete two-branch host. -/
theorem c7_branch_error_amended_witness :
    analyze_repository twoBranchHost missingBranchUrl =
      .error "Error analyzing repository: Could not verify branch nope" :=
  c7_branch_error_amended twoBranchHost ["main", "dev"] rfl rfl (by decide)

/-- C8: the `generate_response` retry loop sleeps 2 s then 4 s — the delays are
exactly `2·2^i`, exponentially increasing — uses at most 3 attempts, returns a
success immediately, surfaces a non-"overloaded" failure immediately with no
retry, and surfaces the final failure only after all three attempts when the
first two were "overloaded". -/
theorem c8_retry_policy (f : Nat → Except String String) :
    ((generate_response f).2 = [] ∨ (generate_response f).2 = [2] ∨
      (generate_response f).2 = [2, 4]) ∧
    ((generate_response f).2 =
      (List.range (generate_response f).2.length).map (fun i => 2 * 2 ^ i)) ∧
    (∀ t, f 0 = .ok t → generate_response f = (.ok t, [])) ∧
    (∀ e, f 0 = .error e → containsOverloaded e = false →
      generate_response f = (.error ("Error generating response: " ++ e), [])) ∧
    (∀ e0 e1 e2, f 0 = .error e0 → f 1 = .error e1 → f 2 = .error e2 →
      containsOverloaded e0 = true → containsOverloaded e1 = true →
      generate_response f = (.error ("Error generating response: " ++ e2), [2, 4])) := by
  cases h0 : f 0 with
  | ok t0 =>
    have hg : generate_response f = (.ok t0, []) := by
      simp [generate_response, chatLoop, h0]
    refine ⟨Or.inl (by rw [hg]), by rw [hg]; rfl, ?_, ?_, ?_⟩
    · intro t ht; injection ht with h; subst h; exact hg
    · intro e he; simp at he
    · intro e0 e1 e2 he0; simp at he0
  | error e0 =>
    by_cases hov0 : containsOverloaded e0 = true
    · cases h1 : f 1 with
      | ok t1 =>
        have hg : generate_response f = (.ok t1, [2]) := by
          simp [generate_response, chatLoop, h0, hov0, h1]
        refine ⟨Or.inr (Or.inl (by rw [hg])), by rw [hg]; rfl, ?_, ?_, ?_⟩
        · intro t ht; simp at ht
        · intro e he hove; injection he with h; subst h
          rw [hov0] at hove; simp at hove
        · intro e0' e1' e2' he0 he1; simp at he1
      | error e1 =>
        by_cases hov1 : containsOverloaded e1 = true
        · cases h2 : f 2 with
          | ok t2 =>
            have hg : generate_response f = (.ok t2, [2, 4]) := by
              simp [generate_response, chatLoop, h0, hov0, h1, hov1, h2]
            refine ⟨Or.inr (Or.inr (by rw [hg])), by rw [hg]; rfl, ?_, ?_, ?_⟩
            · intro t ht; simp at ht
            · intro e he hove; injection he with h; subst h
              rw [hov0] at hove; simp at hove
            · intro e0' e1' e2' he0 he1 he2; simp at he2
          | error e2 =>
            have hg : generate_response f =
                (.error ("Error generating response: " ++ e2), [2, 4]) := by
              simp [generate_response, chatLoop, h0, hov0, h1, hov1, h2]
            refine ⟨Or.inr (Or.inr (by rw [hg])), by rw [hg]; rfl, ?_, ?_, ?_⟩
            · intro t ht; simp at ht
            · intro e he hove; injection he with h; subst h
              rw [hov0] at hove; simp at hove
            · intro e0' e1' e2' he0 he1 he2 _ _
              injection he2 with h; subst h; exact hg
        · have hg : generate_response f =
              (.error ("Error generating response: " ++ e1), [2]) := by
            simp [generate_response, chatLoop, h0, hov0, h1, hov1]
          refine ⟨Or.inr (Or.inl (by rw [hg])), by rw [hg]; rfl, ?_, ?_, ?_⟩
          · intro t ht; simp at ht
          · intro e he hove; injection he with h; subst h
            rw [hov0] at hove; simp at hove
          · intro e0' e1' e2' he0 he1 he2 hove0 hove1
            injection he1 with h; subst h
            exact absurd hove1 hov1
    · have hg : generate_response f =
          (.error ("Error generating response: " ++ e0), []) := by
        simp [generate_response, chatLoop, h0, hov0]
      refine ⟨Or.inl (by rw [hg]), by rw [hg]; rfl, ?_, ?_, ?_⟩
      · intro t ht; simp at ht
      · intro e he _; injection he with h; subst h; exact hg
      · intro e0' e1' e2' he0 he1 he2 hove0 hove1
        injection he0 with h; subst h
        exact absurd hove0 hov0

/-- C8 witness: the delays produced by a run whose first call is overloaded. -/
theorem c8_retry_policy_witness :
    (generate_response chatWitnessCalls).2 = [] ∨
    (generate_response chatWitnessCalls).2 = [2] ∨
    (generate_response chatWitnessCalls).2 = [2, 4] :=
  (c8_retry_policy chatWitnessCalls).1

/-- C9 counterexample: with subpath `docs` and a host whose only README is
`docs/README.md`, the lookup returns `none` — the claim's first candidate
`docs/README.md` exists on the host but is never tried. -/
theorem c9_subpath_readme_ignored :
    get_readme_content docsOnlyHost none none (some "docs") = none ∧
    repoGetContents docsOnlyHost none "docs/README.md" =
      .ok (.one ⟨"docs/README.md", false, 11, "shaD", "Docs readme"⟩) := by
  exact ⟨rfl, rfl⟩

/-- C9 amended: for every host, ref and subpath, the README lookup tries
exactly `README.md`, `README.rst`, `README`, `README.txt` at the repository
root in that order, returns the first that resolves, is entirely independent
of the subpath, and returns `none` (not an error) when none resolves. -/
theorem readmeTry_cons (h : Host) (stored ref : Option String) (nm : String)
    (rest : List String) :
    readmeTry h stored ref (nm :: rest) =
      (match readmeTryOne h stored ref nm with
       | some c => some c
       | none => readmeTry h stored ref rest) := by
  simp only [readmeTry, readmeTryOne]
  rcases service_get_contents h stored nm ref with e | c
  · rfl
  · cases c <;> rfl

theorem c9_readme_root_chain_amended (h : Host) (stored branch sub sub' : Option String) :
    get_readme_content h stored branch sub = readmeSpecChain h stored branch ∧
    get_readme_content h stored branch sub = get_readme_content h stored branch sub' := by
  refine ⟨?_, rfl⟩
  show readmeTry h stored (refArgOf stored branch)
      ["README.md", "README.rst", "README", "README.txt"] = _
  rw [readmeTry_cons, readmeTry_cons, readmeTry_cons, readmeTry_cons]
  simp only [readmeSpecChain]
  rcases readmeTryOne h stored (refArgOf stored branch) "README.md" with _ | c
  · rcases readmeTryOne h stored (refArgOf stored branch) "README.rst" with _ | c
    · rcases readmeTryOne h stored (refArgOf stored branch) "README" with _ | c
      · rcases readmeTryOne h stored (refArgOf stored branch) "README.txt" with _ | c
        · rfl
        · rfl
      · rfl
    · rfl
  · rfl

/-- C9 witness: the amended characterisation at the three-file host (root
README found) and the docs-only host. -/
theorem c9_readme_root_chain_amended_witness :
    get_readme_content threeFileHost none none none =
      readmeSpecChain threeFileHost none none ∧
    get_readme_content docsOnlyHost none none (some "docs") =
      readmeSpecChain docsOnlyHost none none := by
  exact ⟨(c9_readme_root_chain_amended threeFileHost none none none none).1,
         (c9_readme_root_chain_amended docsOnlyHost none none (some "docs") none).1⟩

/-- C10 counterexample: for the `.ts` input `tsSrc`, the line `bar: string`
(index 1, before the first class/function boundary at index 3, and not part of
any imports chunk) *does* appear in a produced chunk — the brace-matched
`interface` chunk — refuting the claim that such lines appear in no chunk of
the output. -/
theorem c10_ts_interface_covers_preboundary_line :
    ((process_file noParse "a.ts" tsSrc).map (fun c => (c.2.type, c.1)) =
      [("interface", "\x7b\nbar: string\n\x7d"), ("function", "function f() \x7b\n\x7d")]) ∧
    jsFirstBoundary false (linesOf tsSrc) = some 3 ∧
    (linesOf tsSrc)[1]? = some "bar: string" ∧
    containsSub "\x7b\nbar: string\n\x7d" "bar: string" = true ∧
    ¬ (∀ c ∈ process_file noParse "a.ts" tsSrc,
        c.2.type = "imports" ∨ containsSub c.1 "bar: string" = false) := by
  exact ⟨by decide, by decide, by decide, by decide, by decide⟩

/-- C10 amended: for every `.js`/`.jsx` input, every produced chunk other than
the imports chunk starts at or after the first boundary line (so lines before
it are covered by no chunk, and when the first boundary is not line 0 — or no
line matches — the chunks do not cover 100% of the input); for `.ts`/`.tsx`
the same holds of the regex-pass chunks, but brace-matched `interface` chunks
can additionally cover pre-boundary lines (see the counterexample). -/
theorem c10_js_chunks_start_at_first_boundary (pyAst : String → Option PyNode)
    (fp content : String) (hext : extOf fp = ".js" ∨ extOf fp = ".jsx") :
    ∀ c ∈ process_file pyAst fp content, c.2.type ≠ "imports" →
      ∃ k s, jsFirstBoundary (containsSub (extOf fp) "jsx") (linesOf content) = some k ∧
        c.2.line_start = some s ∧ k + 1 ≤ s := by
  intro c hc hty
  have hpf : process_file pyAst fp content =
      process_javascript fp content (containsSub (extOf fp) "jsx") := by
    rcases hext with h | h <;> rw [process_file] <;> simp [h]
  rw [hpf] at hc
  rw [process_javascript] at hc
  rcases he : extract_js_imports content with _ | imp
  · rw [he] at hc
    simp only [List.nil_append] at hc
    simpa using jsScan_first_boundary fp _ (linesOf content) 0 c hc
  · rw [he] at hc
    simp only [List.cons_append, List.nil_append, List.mem_cons] at hc
    rcases hc with hc1 | hc2
    · subst hc1; simp at hty
    · simpa using jsScan_first_boundary fp _ (linesOf content) 0 c hc2

/-- C10 witness: the final chunk of a concrete `.js` file with one
pre-boundary line starts at the boundary (line 2, after boundary index 1). -/
theorem c10_js_chunks_start_at_first_boundary_witness :
    ∃ k s, jsFirstBoundary false (linesOf jsWitnessSrc) = some k ∧
      c10WitnessChunk.2.line_start = some s ∧ k + 1 ≤ s :=
  c10_js_chunks_start_at_first_boundary noParse "w.js" jsWitnessSrc (Or.inl rfl)
    c10WitnessChunk (by decide) (by decide)

end GitChatbot
